import Mathlib

/-!
Verification of the Analysis & Simulation Core of the cybos-server repository.

The Python source is shallowly embedded in Lean:
  * Python floats are modeled as exact rationals (`ℚ`) in the ledger code,
    where every operation is field arithmetic, and as exact reals (`ℝ`) where
    square roots / powers / logarithms occur; IEEE rounding is out of scope.
  * IEEE NaN is modeled explicitly (as `Option.none` or a dedicated
    constructor) on the code paths where numpy can produce it.
  * Python `dict`s (insertion ordered, unique keys) are association lists.
  * Mutating methods become functions returning the updated object.
-/

/-- Python `d[k] = v`: replace the value in place if the key exists,
otherwise append the binding at the end (Python dicts keep insertion order). -/
def dictInsert {α : Type} (l : List (String × α)) (k : String) (v : α) :
    List (String × α) :=
  if (l.lookup k).isSome then
    l.map (fun q => if q.1 = k then (q.1, v) else q)
  else
    l ++ [(k, v)]

/-- Python `del d[k]`: remove the (first, hence only) binding for `k`. -/
def dictErase {α : Type} (l : List (String × α)) (k : String) :
    List (String × α) :=
  l.eraseP (fun q => q.1 == k)

/-! ## Portfolio ledger (src/src/services/backtest_engine/portfolio.py)

Dates (`datetime`) are modeled as day numbers (`ℕ`); `(d2 - d1).days`
becomes integer subtraction. -/

/-- `Position` dataclass. -/
structure Position where
  stock_code : String
  quantity : ℤ
  entry_price : ℚ
  entry_date : ℕ
  current_price : ℚ := 0
deriving DecidableEq

/-- `Position.value`: quantity × current price. -/
def Position.value (p : Position) : ℚ := (p.quantity : ℚ) * p.current_price

/-- `Position.cost`: quantity × entry price. -/
def Position.cost (p : Position) : ℚ := (p.quantity : ℚ) * p.entry_price

/-- `Position.pnl`. -/
def Position.pnl (p : Position) : ℚ := p.value - p.cost

/-- `Position.pnl_pct`. -/
def Position.pnl_pct (p : Position) : ℚ :=
  if p.cost = 0 then 0 else p.pnl / p.cost * 100

/-- `PairPosition` dataclass. -/
structure PairPosition where
  pair_id : String
  long_position : Position
  short_position : Position
  entry_date : ℕ
  hedge_ratio : ℚ := 1
deriving DecidableEq

/-- `PairPosition.total_value`: |long value| + |short value|. -/
def PairPosition.total_value (p : PairPosition) : ℚ :=
  |p.long_position.value| + |p.short_position.value|

/-- `PairPosition.total_cost`. -/
def PairPosition.total_cost (p : PairPosition) : ℚ :=
  |p.long_position.cost| + |p.short_position.cost|

/-- `PairPosition.net_pnl`. -/
def PairPosition.net_pnl (p : PairPosition) : ℚ :=
  p.long_position.pnl + p.short_position.pnl

/-- `PairPosition.net_pnl_pct`. -/
def PairPosition.net_pnl_pct (p : PairPosition) : ℚ :=
  if p.total_cost = 0 then 0 else p.net_pnl / p.total_cost * 100

/-- Trade record appended by `Portfolio.close_position`. -/
structure TradeRec where
  stock_code : String
  quantity : ℤ
  entry_price : ℚ
  exit_price : ℚ
  entry_date : ℕ
  exit_date : ℕ
  pnl : ℚ
  pnl_pct : ℚ
  holding_days : ℤ
deriving DecidableEq

/-- Trade record appended by `Portfolio.close_pair_position`; the
`commission` key is added afterwards by `TradingSimulator.close_pair_trade`
(in Python both share one dict object, so the logged record changes too). -/
structure PairTradeRec where
  pair_id : String
  long_code : String
  short_code : String
  entry_date : ℕ
  exit_date : ℕ
  total_cost : ℚ
  total_proceeds : ℚ
  pnl : ℚ
  pnl_pct : ℚ
  holding_days : ℤ
  commission : ℚ := 0
deriving DecidableEq

/-- The trade log holds both record shapes. -/
inductive Trade where
  | single : TradeRec → Trade
  | pairTrade : PairTradeRec → Trade
deriving DecidableEq

/-- `Portfolio` dataclass. -/
structure Portfolio where
  initial_capital : ℚ
  cash : ℚ
  positions : List (String × Position) := []
  pair_positions : List (String × PairPosition) := []
  equity_curve : List (ℕ × ℚ) := []
  trades : List Trade := []
deriving DecidableEq

/-- `Portfolio(initial_capital=c)` followed by `__post_init__`
(which sets `cash = initial_capital` when cash is the default 0). -/
def Portfolio.start (c : ℚ) : Portfolio :=
  { initial_capital := c, cash := c }

/-- `Portfolio.total_position_value`. -/
def Portfolio.total_position_value (p : Portfolio) : ℚ :=
  (p.positions.map (fun q => q.2.value)).sum

/-- `Portfolio.total_pair_value`. -/
def Portfolio.total_pair_value (p : Portfolio) : ℚ :=
  (p.pair_positions.map (fun q => q.2.total_value)).sum

/-- `Portfolio.total_value`. -/
def Portfolio.total_value (p : Portfolio) : ℚ :=
  p.cash + p.total_position_value + p.total_pair_value

/-- `Portfolio.add_position`. -/
def Portfolio.add_position (p : Portfolio) (stock_code : String)
    (quantity : ℤ) (price : ℚ) (date : ℕ) : Bool × Portfolio :=
  let cost := |(quantity : ℚ) * price|
  if cost > p.cash then (false, p)
  else
    (true,
      { p with
        cash := p.cash - cost
        positions := dictInsert p.positions stock_code
          { stock_code := stock_code, quantity := quantity,
            entry_price := price, entry_date := date,
            current_price := price } })

/-- `Portfolio.close_position`. -/
def Portfolio.close_position (p : Portfolio) (stock_code : String)
    (price : ℚ) (date : ℕ) : Option TradeRec × Portfolio :=
  match p.positions.lookup stock_code with
  | none => (none, p)
  | some position =>
    let proceeds := (position.quantity : ℚ) * price
    let pnl := proceeds - position.cost
    let trade : TradeRec :=
      { stock_code := stock_code, quantity := position.quantity,
        entry_price := position.entry_price, exit_price := price,
        entry_date := position.entry_date, exit_date := date,
        pnl := pnl, pnl_pct := position.pnl_pct,
        holding_days := (date : ℤ) - (position.entry_date : ℤ) }
    (some trade,
      { p with
        cash := p.cash + proceeds
        trades := p.trades ++ [Trade.single trade]
        positions := dictErase p.positions stock_code })

/-- `Portfolio.add_pair_position`. -/
def Portfolio.add_pair_position (p : Portfolio) (pair_id : String)
    (long_code short_code : String) (long_qty short_qty : ℤ)
    (long_price short_price : ℚ) (date : ℕ) (hedge_ratio : ℚ) :
    Bool × Portfolio :=
  let long_cost := (long_qty : ℚ) * long_price
  let short_cost := |(short_qty : ℚ) * short_price|
  let total_cost := long_cost + short_cost
  if total_cost > p.cash then (false, p)
  else
    let long_position : Position :=
      { stock_code := long_code, quantity := long_qty,
        entry_price := long_price, entry_date := date,
        current_price := long_price }
    let short_position : Position :=
      { stock_code := short_code, quantity := -|short_qty|,
        entry_price := short_price, entry_date := date,
        current_price := short_price }
    (true,
      { p with
        cash := p.cash - total_cost
        pair_positions := dictInsert p.pair_positions pair_id
          { pair_id := pair_id, long_position := long_position,
            short_position := short_position, entry_date := date,
            hedge_ratio := hedge_ratio } })

/-- `Portfolio.close_pair_position`. -/
def Portfolio.close_pair_position (p : Portfolio) (pair_id : String)
    (long_price short_price : ℚ) (date : ℕ) :
    Option PairTradeRec × Portfolio :=
  match p.pair_positions.lookup pair_id with
  | none => (none, p)
  | some pair =>
    let long_proceeds := (pair.long_position.quantity : ℚ) * long_price
    let short_proceeds :=
      |(pair.short_position.quantity : ℚ)| *
        (pair.short_position.entry_price - short_price)
    let total_proceeds := long_proceeds + short_proceeds
    let trade : PairTradeRec :=
      { pair_id := pair_id,
        long_code := pair.long_position.stock_code,
        short_code := pair.short_position.stock_code,
        entry_date := pair.entry_date, exit_date := date,
        total_cost := pair.total_cost, total_proceeds := total_proceeds,
        pnl := pair.net_pnl, pnl_pct := pair.net_pnl_pct,
        holding_days := (date : ℤ) - (pair.entry_date : ℤ) }
    (some trade,
      { p with
        cash := p.cash + total_proceeds
        trades := p.trades ++ [Trade.pairTrade trade]
        pair_positions := dictErase p.pair_positions pair_id })

/-- Mark one position to market from the price map, looking it up by `key`
(the dict key for single positions, the leg's `stock_code` for pair legs). -/
def markPosition (prices : List (String × ℚ)) (key : String)
    (pos : Position) : Position :=
  match prices.lookup key with
  | some v => { pos with current_price := v }
  | none => pos

/-- `Portfolio.update_prices`: mark every position and both legs of every
pair position, then append one `(date, total_value)` point. -/
def Portfolio.update_prices (p : Portfolio) (prices : List (String × ℚ))
    (date : ℕ) : Portfolio :=
  let p1 :=
    { p with
      positions := p.positions.map
        (fun (q : String × Position) => (q.1, markPosition prices q.1 q.2))
      pair_positions := p.pair_positions.map
        (fun (q : String × PairPosition) => (q.1,
          { q.2 with
            long_position :=
              markPosition prices q.2.long_position.stock_code
                q.2.long_position
            short_position :=
              markPosition prices q.2.short_position.stock_code
                q.2.short_position })) }
  { p1 with equity_curve := p1.equity_curve ++ [(date, p1.total_value)] }

/-! ## Trading simulator (src/src/services/backtest_engine/simulator.py) -/

/-- `TradingSimulator` with its cost-rate configuration. -/
structure TradingSimulator where
  commission_rate : ℚ := 15 / 10000
  slippage_rate : ℚ := 1 / 1000
  impact_cost_rate : ℚ := 5 / 10000
deriving DecidableEq

/-- `TradingSimulator.calculate_execution_price` (the `quantity` argument is
unused in the source as well). -/
def TradingSimulator.calculate_execution_price (s : TradingSimulator)
    (base_price : ℚ) (_quantity : ℤ) (is_buy : Bool) : ℚ :=
  let dir : ℚ := if is_buy then 1 else -1
  let slippage := base_price * s.slippage_rate * dir
  let impact := base_price * s.impact_cost_rate * dir
  max 0 (base_price + slippage + impact)

/-- `TradingSimulator.calculate_commission`. -/
def TradingSimulator.calculate_commission (s : TradingSimulator)
    (trade_value : ℚ) : ℚ :=
  trade_value * s.commission_rate

/-- `TradingSimulator.execute_long`; returns (success, reason, portfolio). -/
def TradingSimulator.execute_long (s : TradingSimulator) (portfolio : Portfolio)
    (stock_code : String) (quantity : ℤ) (price : ℚ) (date : ℕ) :
    Bool × Option String × Portfolio :=
  if quantity ≤ 0 then (false, some "Invalid quantity", portfolio)
  else
    let execution_price := s.calculate_execution_price price quantity true
    let trade_value := (quantity : ℚ) * execution_price
    let commission := s.calculate_commission trade_value
    let total_cost := trade_value + commission
    if total_cost > portfolio.cash then
      (false, some "Insufficient funds", portfolio)
    else
      match portfolio.add_position stock_code quantity execution_price date with
      | (false, p1) => (false, some "Failed to add position", p1)
      | (true, p1) => (true, none, { p1 with cash := p1.cash - commission })

/-- `TradingSimulator.execute_short`. Note the source deducts
`margin_required` after `add_position` has already deducted the trade value. -/
def TradingSimulator.execute_short (s : TradingSimulator) (portfolio : Portfolio)
    (stock_code : String) (quantity : ℤ) (price : ℚ) (date : ℕ) :
    Bool × Option String × Portfolio :=
  if quantity ≤ 0 then (false, some "Invalid quantity", portfolio)
  else
    let execution_price := s.calculate_execution_price price quantity false
    let trade_value := (quantity : ℚ) * execution_price
    let commission := s.calculate_commission trade_value
    let margin_required := trade_value + commission
    if margin_required > portfolio.cash then
      (false, some "Insufficient margin", portfolio)
    else
      match portfolio.add_position stock_code (-quantity) execution_price date with
      | (false, p1) => (false, some "Failed to add position", p1)
      | (true, p1) => (true, none, { p1 with cash := p1.cash - margin_required })

/-- `TradingSimulator.execute_pair_trade`. -/
def TradingSimulator.execute_pair_trade (s : TradingSimulator)
    (portfolio : Portfolio) (pair_id : String) (long_code short_code : String)
    (long_qty short_qty : ℤ) (long_price short_price : ℚ) (date : ℕ)
    (hedge_ratio : ℚ) : Bool × Option String × Portfolio :=
  if long_qty ≤ 0 ∨ short_qty ≤ 0 then
    (false, some "Invalid quantities", portfolio)
  else
    let long_exec_price := s.calculate_execution_price long_price long_qty true
    let short_exec_price := s.calculate_execution_price short_price short_qty false
    let long_trade_value := (long_qty : ℚ) * long_exec_price
    let short_trade_value := (short_qty : ℚ) * short_exec_price
    let long_commission := s.calculate_commission long_trade_value
    let short_commission := s.calculate_commission short_trade_value
    let total_cost :=
      long_trade_value + short_trade_value + long_commission + short_commission
    if total_cost > portfolio.cash then
      (false, some "Insufficient funds", portfolio)
    else
      match portfolio.add_pair_position pair_id long_code short_code
          long_qty short_qty long_exec_price short_exec_price date hedge_ratio with
      | (false, p1) => (false, some "Failed to add pair position", p1)
      | (true, p1) =>
        (true, none,
          { p1 with cash := p1.cash - (long_commission + short_commission) })

/-- Replace the `commission` field of the last logged pair trade (Python
mutates the shared dict object after appending it to the log). -/
def setLastTradeCommission (trades : List Trade) (c : ℚ) : List Trade :=
  match trades.getLast? with
  | some (Trade.pairTrade t) =>
      trades.dropLast ++ [Trade.pairTrade { t with commission := c }]
  | _ => trades

/-- `TradingSimulator.close_pair_trade`; returns
(success, reason, trade record, portfolio). -/
def TradingSimulator.close_pair_trade (s : TradingSimulator)
    (portfolio : Portfolio) (pair_id : String) (long_price short_price : ℚ)
    (date : ℕ) : Bool × Option String × Option PairTradeRec × Portfolio :=
  match portfolio.pair_positions.lookup pair_id with
  | none => (false, some "Pair position not found", none, portfolio)
  | some pair =>
    let long_exec_price :=
      s.calculate_execution_price long_price pair.long_position.quantity false
    let short_exec_price :=
      s.calculate_execution_price short_price |pair.short_position.quantity| true
    let long_commission :=
      s.calculate_commission ((pair.long_position.quantity : ℚ) * long_exec_price)
    let short_commission :=
      s.calculate_commission
        (|(pair.short_position.quantity : ℚ)| * short_exec_price)
    match portfolio.close_pair_position pair_id long_exec_price
        short_exec_price date with
    | (none, p1) => (false, some "Failed to close pair position", none, p1)
    | (some trade, p1) =>
      let commission := long_commission + short_commission
      (true, none, some { trade with commission := commission },
        { p1 with
          cash := p1.cash - commission
          trades := setLastTradeCommission p1.trades commission })

/-! ## Backtest engine (src/src/services/backtest_engine/engine.py) -/

/-- `BacktestConfig`. -/
structure BacktestConfig where
  initial_capital : ℚ
  start_date : ℕ
  end_date : ℕ
  commission_rate : ℚ := 15 / 10000
  slippage_rate : ℚ := 1 / 1000
  impact_cost_rate : ℚ := 5 / 10000
  risk_free_rate : ℚ := 3 / 100
deriving DecidableEq

/-- A trading-signal dict; optional keys become `Option` fields and the
`signal.get(key, default)` defaults are applied at the use sites. -/
structure Signal where
  date : ℕ
  signal_type : String := ""
  pair_id : Option String := none
  long_code : Option String := none
  short_code : Option String := none
  long_quantity : Option ℤ := none
  short_quantity : Option ℤ := none
  hedge_ratio : Option ℚ := none
  stock_code : Option String := none
  quantity : Option ℤ := none
deriving DecidableEq

/-- Python truthiness of an optional string (`None` and `""` are falsy). -/
def truthy : Option String → Bool
  | none => false
  | some s => !(s == "")

/-- Stable insertion into a date-sorted signal list. -/
def insertByDate (s : Signal) : List Signal → List Signal
  | [] => [s]
  | t :: ts => if t.date < s.date then t :: insertByDate s ts else s :: t :: ts

/-- `sorted(signals, key=lambda x: x["date"])` — a stable sort by date. -/
def sortByDate : List Signal → List Signal
  | [] => []
  | s :: ss => insertByDate s (sortByDate ss)

/-- `BacktestEngine._get_prices_for_date`. -/
def getPricesForDate (price_data : List (String × List (ℕ × ℚ))) (date : ℕ) :
    List (String × ℚ) :=
  price_data.filterMap
    (fun q => (q.2.lookup date).map (fun v => (q.1, v)))

/-- `BacktestEngine._execute_pair_entry` (the failure branch only prints). -/
def execPairEntry (sim : TradingSimulator) (p : Portfolio) (signal : Signal)
    (current_prices : List (String × ℚ)) (date : ℕ) : Portfolio :=
  match signal.pair_id, signal.long_code, signal.short_code with
  | some pid, some lc, some sc =>
    if pid = "" ∨ lc = "" ∨ sc = "" then p
    else
      match current_prices.lookup lc, current_prices.lookup sc with
      | some long_price, some short_price =>
        (sim.execute_pair_trade p pid lc sc
          (signal.long_quantity.getD 100) (signal.short_quantity.getD 100)
          long_price short_price date (signal.hedge_ratio.getD 1)).2.2
      | _, _ => p
  | _, _, _ => p

/-- `BacktestEngine._execute_pair_exit`. -/
def execPairExit (sim : TradingSimulator) (p : Portfolio) (signal : Signal)
    (current_prices : List (String × ℚ)) (date : ℕ) : Portfolio :=
  match signal.pair_id with
  | none => p
  | some pid =>
    if pid = "" then p
    else
      match p.pair_positions.lookup pid with
      | none => p
      | some pair =>
        match current_prices.lookup pair.long_position.stock_code,
            current_prices.lookup pair.short_position.stock_code with
        | some long_price, some short_price =>
          (sim.close_pair_trade p pid long_price short_price date).2.2.2
        | _, _ => p

/-- `BacktestEngine._execute_long`. -/
def execLong (sim : TradingSimulator) (p : Portfolio) (signal : Signal)
    (current_prices : List (String × ℚ)) (date : ℕ) : Portfolio :=
  match signal.stock_code with
  | none => p
  | some code =>
    if code = "" then p
    else
      match current_prices.lookup code with
      | none => p
      | some price =>
        (sim.execute_long p code (signal.quantity.getD 100) price date).2.2

/-- `BacktestEngine._execute_short`. -/
def execShort (sim : TradingSimulator) (p : Portfolio) (signal : Signal)
    (current_prices : List (String × ℚ)) (date : ℕ) : Portfolio :=
  match signal.stock_code with
  | none => p
  | some code =>
    if code = "" then p
    else
      match current_prices.lookup code with
      | none => p
      | some price =>
        (sim.execute_short p code (signal.quantity.getD 100) price date).2.2

/-- `BacktestEngine._execute_signal`: dispatch on the signal type string
(unknown types are ignored). -/
def execSignal (sim : TradingSimulator) (p : Portfolio) (signal : Signal)
    (current_prices : List (String × ℚ)) (date : ℕ) : Portfolio :=
  if signal.signal_type = "PAIR_ENTRY_LONG" then
    execPairEntry sim p signal current_prices date
  else if signal.signal_type = "PAIR_EXIT" then
    execPairExit sim p signal current_prices date
  else if signal.signal_type = "LONG" then
    execLong sim p signal current_prices date
  else if signal.signal_type = "SHORT" then
    execShort sim p signal current_prices date
  else p

/-- The inner `while signal_idx < len(sorted_signals)` loop of
`BacktestEngine.run`: consume the sorted list up to the current date,
executing signals dated exactly today; return the unconsumed suffix. -/
def processSignals (sim : TradingSimulator) (current_date : ℕ)
    (current_prices : List (String × ℚ)) :
    List Signal → Portfolio → List Signal × Portfolio
  | [], p => ([], p)
  | s :: rest, p =>
    if current_date < s.date then (s :: rest, p)
    else
      processSignals sim current_date current_prices rest
        (if s.date = current_date then
          execSignal sim p s current_prices current_date
        else p)

/-- The daily `while current_date <= end_date` loop of `BacktestEngine.run`;
`fuel` is the number of remaining days. Prices are gathered for the day, the
portfolio is marked to market only when at least one price is available, and
then the day's signals are applied. -/
def runLoop (sim : TradingSimulator)
    (price_data : List (String × List (ℕ × ℚ))) :
    ℕ → ℕ → List Signal → Portfolio → Portfolio
  | 0, _, _, p => p
  | fuel + 1, current_date, sigs, p =>
    let current_prices := getPricesForDate price_data current_date
    let p1 :=
      if current_prices ≠ [] then p.update_prices current_prices current_date
      else p
    let step := processSignals sim current_date current_prices sigs p1
    runLoop sim price_data fuel (current_date + 1) step.1 step.2

/-- `BacktestEngine.run`, modeled up to the final portfolio state (the
terminal `PerformanceMetrics.calculate_all_metrics` aggregation, embedded
separately below, only reads the portfolio's fields and never modifies
them, and `BacktestResult` merely repackages them). -/
def BacktestEngine.run (config : BacktestConfig)
    (price_data : List (String × List (ℕ × ℚ))) (signals : List Signal) :
    Portfolio :=
  let portfolio := Portfolio.start config.initial_capital
  let sim : TradingSimulator :=
    { commission_rate := config.commission_rate,
      slippage_rate := config.slippage_rate,
      impact_cost_rate := config.impact_cost_rate }
  runLoop sim price_data (config.end_date + 1 - config.start_date)
    config.start_date (sortByDate signals) portfolio

/-- The simulated calendar days of a run: `start_date`, `start_date + 1`, …
up to and including `end_date`. -/
def simDaysFrom (current_date : ℕ) : ℕ → List ℕ
  | 0 => []
  | fuel + 1 => current_date :: simDaysFrom (current_date + 1) fuel

/-- All days in `[start_date, end_date]`. -/
def simDays (start_date end_date : ℕ) : List ℕ :=
  simDaysFrom start_date (end_date + 1 - start_date)

/-! ## Performance metrics (src/src/services/backtest_engine/metrics.py) -/

/-- A non-NaN float result that may be `float('inf')`. -/
inductive PFloat where
  | val : ℚ → PFloat
  | inf : PFloat
deriving DecidableEq

/-- Gross win: `sum(pnl for pnl in pnls if pnl > 0)`. -/
def total_profit (pnls : List ℚ) : ℚ :=
  (pnls.filter (fun x => 0 < x)).sum

/-- Gross loss: `abs(sum(pnl for pnl in pnls if pnl < 0))`. -/
def total_loss (pnls : List ℚ) : ℚ :=
  |(pnls.filter (fun x => x < 0)).sum|

/-- `PerformanceMetrics.profit_factor` over the trades' pnl values. -/
def profit_factor (pnls : List ℚ) : PFloat :=
  if pnls.length = 0 then .val 0
  else if total_loss pnls = 0 then
    (if 0 < total_profit pnls then .inf else .val 0)
  else .val (total_profit pnls / total_loss pnls)

/-!
NaN-tracking real arithmetic for the numpy-based statistics.

A float value is `Option ℝ`, with `none` standing for IEEE NaN.  In
`nfDiv`, a zero divisor yields `none`: in IEEE terms `0/0` is NaN, and
`x/0` with `x ≠ 0` is `±inf` — but wherever the embedded code divides, the
divisor is either tested against zero first or the numerator is exactly 0
whenever the divisor is (the `n - ddof` variance divisor), so `none` is the
faithful result on every reachable path.  Comparisons against NaN are false
in IEEE arithmetic; the embedded code therefore compares against
`some c` (a finite value), which `none` never equals.
-/

/-- NaN-propagating subtraction of a plain float. -/
def nfSub (a : Option ℝ) (b : Option ℝ) : Option ℝ :=
  match a, b with
  | some x, some y => some (x - y)
  | _, _ => none

/-- NaN-propagating multiplication. -/
def nfMul (a : Option ℝ) (b : Option ℝ) : Option ℝ :=
  match a, b with
  | some x, some y => some (x * y)
  | _, _ => none

open Classical in
/-- NaN-propagating division; a zero divisor gives NaN (see above). -/
noncomputable def nfDiv (a : Option ℝ) (b : Option ℝ) : Option ℝ :=
  match a, b with
  | some x, some y => if y = 0 then none else some (x / y)
  | _, _ => none

/-- `np.mean`: NaN on the empty list. -/
noncomputable def npMean (xs : List ℝ) : Option ℝ :=
  nfDiv (some xs.sum) (some xs.length)

/-- `np.var(xs, ddof=d)`: sum of squared deviations over `len - ddof`.
With `len = ddof` both are 0 and the result is NaN. -/
noncomputable def npVar (ddof : ℕ) (xs : List ℝ) : Option ℝ :=
  match npMean xs with
  | none => none
  | some m =>
    nfDiv (some ((xs.map (fun x => (x - m) ^ 2)).sum))
      (some ((xs.length : ℝ) - ddof))

/-- `np.std(xs, ddof=d)` (the variance is never negative when finite). -/
noncomputable def npStd (ddof : ℕ) (xs : List ℝ) : Option ℝ :=
  (npVar ddof xs).map Real.sqrt

/-- `PerformanceMetrics.sharpe_ratio`. -/
noncomputable def sharpe_ratio (returns : List ℝ) (risk_free_rate : ℝ) :
    Option ℝ :=
  if returns.length = 0 then some 0
  else
    let daily_rf := (1 + risk_free_rate) ^ ((1 : ℝ) / 252) - 1
    let excess_returns := returns.map (fun r => r - daily_rf)
    let mean_excess := npMean excess_returns
    let std_excess := npStd 1 excess_returns
    if std_excess = some 0 then some 0
    else nfMul (nfDiv mean_excess std_excess) (some (Real.sqrt 252))

/-- The `volatility` expression of
`PerformanceMetrics.calculate_all_metrics` (line 217):
`np.std(returns, ddof=1) * np.sqrt(252) * 100` when returns are non-empty. -/
noncomputable def volatility (returns : List ℝ) : Option ℝ :=
  if 0 < returns.length then
    nfMul (nfMul (npStd 1 returns) (some (Real.sqrt 252))) (some 100)
  else some 0

/-! ## Spread analyzer (src/src/services/signal_generator/analyzer.py) -/

/-- `SpreadAnalyzer` configuration. -/
structure SpreadAnalyzer where
  lookback_period : ℕ := 60
  z_score_entry : ℝ := 2
  z_score_exit : ℝ := 1 / 2

/-- `SpreadAnalyzer.calculate_z_score` (no analyzer field is read).  The
Python slice `spread[-window:]` returns the whole list when `window = 0`
(since `-0 == 0`) and when `window ≥ len`. -/
noncomputable def calculate_z_score (spread : List ℝ) (window : Option ℕ) :
    Option ℝ :=
  if spread.length = 0 then some 0
  else
    let w := window.getD spread.length
    let recent_spread :=
      if w = 0 then spread else spread.drop (spread.length - w)
    let mean := npMean recent_spread
    let std := npStd 1 recent_spread
    if std = some 0 then some 0
    else nfDiv (nfSub (some ((spread.getLast?).getD 0)) mean) std

open Classical in
/-- `SpreadAnalyzer.detect_entry_signal`.  A NaN Z-score fails both
comparisons, so it falls through to `none`, exactly as in Python. -/
noncomputable def SpreadAnalyzer.detect_entry_signal (a : SpreadAnalyzer)
    (spread : List ℝ) (window : Option ℕ) : Option String :=
  match calculate_z_score spread window with
  | none => none
  | some z =>
    if a.z_score_entry < z then some "SHORT"
    else if z < -a.z_score_entry then some "LONG"
    else none

open Classical in
/-- `SpreadAnalyzer.detect_exit_signal`.  A NaN Z-score fails both
comparisons, so every branch returns `false`. -/
noncomputable def SpreadAnalyzer.detect_exit_signal (a : SpreadAnalyzer)
    (spread : List ℝ) (position_type : String) (window : Option ℕ) : Bool :=
  match calculate_z_score spread window with
  | none => false
  | some z =>
    if position_type = "LONG" then decide (-a.z_score_exit ≤ z)
    else if position_type = "SHORT" then decide (z ≤ a.z_score_exit)
    else false

/-! ## Half-life (SpreadAnalyzer.calculate_half_life /
CointegrationAnalyzer._calculate_half_life — both bodies are identical)

Over rational inputs every covariance / variance is rational, so the NaN
tracking uses `Option ℚ`.  The transcendental output `-ln 2 / ln β` is kept
symbolic: `HalfLifeVal.ar β` denotes that real number for the computed
AR(1) coefficient `β`, so two computations agree on the real half-life
exactly when they agree on this symbolic value. -/

/-- NaN-propagating rational division: in every division the embedded code
performs, the divisor is zero-tested first or the numerator is exactly 0
whenever the divisor is, so a zero divisor faithfully yields NaN. -/
def qdiv : Option ℚ → Option ℚ → Option ℚ
  | some a, some b => if b = 0 then none else some (a / b)
  | _, _ => none

/-- `np.mean` over rationals: NaN on the empty list. -/
def npMeanQ (xs : List ℚ) : Option ℚ :=
  qdiv (some xs.sum) (some xs.length)

/-- `np.var(xs, ddof=1)` over rationals. -/
def npVarQ (xs : List ℚ) : Option ℚ :=
  match npMeanQ xs with
  | none => none
  | some m =>
    qdiv (some ((xs.map (fun x => (x - m) ^ 2)).sum))
      (some ((xs.length : ℚ) - 1))

/-- `np.cov(xs, ys)[0, 1]` over rationals (numpy's default `ddof=1`,
divisor = number of observations − 1). -/
def npCovQ (xs ys : List ℚ) : Option ℚ :=
  match npMeanQ xs, npMeanQ ys with
  | some mx, some my =>
    qdiv (some (((xs.zip ys).map (fun q => (q.1 - mx) * (q.2 - my))).sum))
      (some ((xs.length : ℚ) - 1))
  | _, _ => none

/-- Result of a half-life computation: `nan` (the NaN float), the neutral
`0.0`, or the symbolic value `-ln 2 / ln β` for an AR(1) coefficient
`β ∈ (0, 1)`. -/
inductive HalfLifeVal where
  | nan : HalfLifeVal
  | zero : HalfLifeVal
  | ar : ℚ → HalfLifeVal
deriving DecidableEq

/-- `calculate_half_life(spread)`: regress `spread[1:]` on `spread[:-1]`.
A NaN β fails both range checks (`beta >= 1 or beta <= 0` are false) and
then `-log(2)/log(beta)` is NaN. -/
def calculate_half_life (spread : List ℚ) : HalfLifeVal :=
  if spread.length < 2 then .zero
  else
    let spread_lag := spread.dropLast
    let spread_curr := spread.drop 1
    let covariance := npCovQ spread_lag spread_curr
    let variance := npVarQ spread_lag
    if variance = some 0 then .zero
    else
      match qdiv covariance variance with
      | some beta => if 1 ≤ beta ∨ beta ≤ 0 then .zero else .ar beta
      | none => .nan

/-- Modelled from the spec's wording of the half-life (claim C6):
`λ = cov(Δspread, lagged spread)/var(lagged spread) + 1` with sample
covariance/variance (ddof = 1); the half-life is `-ln 2 / ln λ` when
`0 < λ < 1` and `0.0` otherwise (a NaN λ is not in `(0, 1)`); series
shorter than 2 give `0.0`. -/
def specHalfLife (spread : List ℚ) : HalfLifeVal :=
  if spread.length < 2 then .zero
  else
    let spread_lag := spread.dropLast
    let delta := (spread.drop 1).zipWith (fun c l => c - l) spread_lag
    match qdiv (npCovQ delta spread_lag) (npVarQ spread_lag) with
    | some lam0 =>
      let lam := lam0 + 1
      if 0 < lam ∧ lam < 1 then .ar lam else .zero
    | none => .zero

/-! ## Cointegration analyzer (src/src/services/cointegration_analyzer.py)

The calls into statsmodels (`coint`, `adfuller`, `coint_johansen`) are
third-party library routines outside this repository; they are abstracted
as total collaborator functions supplied through `StatsOracle` (their float
outputs are just data and are modeled as rationals).  Everything around
them is embedded from the source. -/

/-- Total sample mean (the callers below guarantee ≥ 30 observations, so
numpy's NaN cases are unreachable and plain rational arithmetic is exact). -/
def meanQ (xs : List ℚ) : ℚ := xs.sum / xs.length

/-- Total `np.var(xs, ddof=1)` for the guarded (≥ 30 samples) call sites. -/
def sampleVar (xs : List ℚ) : ℚ :=
  ((xs.map (fun x => (x - meanQ xs) ^ 2)).sum) / ((xs.length : ℚ) - 1)

/-- Total `np.cov(xs, ys)[0, 1]` for the guarded call sites. -/
def sampleCov (xs ys : List ℚ) : ℚ :=
  (((xs.zip ys).map (fun q => (q.1 - meanQ xs) * (q.2 - meanQ ys))).sum) /
    ((xs.length : ℚ) - 1)

/-- `CointegrationMethod`. -/
inductive CointMethod where
  | engle_granger
  | johansen
deriving DecidableEq

/-- `SignificanceLevel`. -/
inductive SigLevel where
  | highly_sig
  | significant
  | marginal
  | not_sig
deriving DecidableEq

/-- `CointegrationAnalyzer._determine_significance`. -/
def determine_significance (p_value : ℚ) : SigLevel :=
  if p_value < 1 / 100 then .highly_sig
  else if p_value < 5 / 100 then .significant
  else if p_value < 1 / 10 then .marginal
  else .not_sig

/-- `CointegrationAnalyzer._estimate_p_value_from_critical`
(`cv = (cv90, cv95, cv99)`). -/
def estimate_p_value_from_critical (test_stat : ℚ) (cv : ℚ × ℚ × ℚ) : ℚ :=
  if cv.2.2 < test_stat then 5 / 1000
  else if cv.2.1 < test_stat then 3 / 100
  else if cv.1 < test_stat then 7 / 100
  else 15 / 100

/-- `CointegrationAnalyzer._calculate_hedge_ratio` (OLS slope). -/
def calculate_hedge_ratio (prices_a prices_b : List ℚ) : ℚ :=
  let covariance := sampleCov prices_a prices_b
  let variance_b := sampleVar prices_b
  if variance_b = 0 then 1 else covariance / variance_b

/-- The external statsmodels routines as total collaborator functions:
`coint` returns (test statistic, p-value, critical values 1/5/10%);
`adfuller` returns (statistic, p-value); `johansen` returns
(trace statistic, critical values 90/95/99%, first eigenvector). -/
structure StatsOracle where
  coint : List ℚ → List ℚ → ℚ × ℚ × (ℚ × ℚ × ℚ)
  adfuller : List ℚ → ℚ × ℚ
  johansen : List ℚ → List ℚ → ℚ × (ℚ × ℚ × ℚ) × (ℚ × ℚ)

/-- The analysis-result dict (`residuals_std` is the square root of the
sample variance of the spread, kept as a real). -/
structure CointResult where
  method : CointMethod
  test_statistic : ℚ
  p_value : ℚ
  critical_values : ℚ × ℚ × ℚ
  cointegration_vector : List ℚ
  hedge_ratios : List ℚ
  intercept : ℚ
  residuals_mean : ℚ
  residuals_std : ℝ
  half_life : HalfLifeVal
  adf_statistic : ℚ
  adf_p_value : ℚ
  significance : SigLevel
  sample_size : ℕ

/-- `CointegrationAnalyzer._engle_granger_test`. -/
noncomputable def engle_granger_test (o : StatsOracle)
    (prices_a prices_b : List ℚ) : CointResult :=
  let c := o.coint prices_a prices_b
  let hedge_ratio := calculate_hedge_ratio prices_a prices_b
  let spread := prices_a.zipWith (fun a b => a - hedge_ratio * b) prices_b
  let adf := o.adfuller spread
  { method := .engle_granger
    test_statistic := c.1
    p_value := c.2.1
    critical_values := c.2.2
    cointegration_vector := [1, -hedge_ratio]
    hedge_ratios := [hedge_ratio]
    intercept := 0
    residuals_mean := meanQ spread
    residuals_std := Real.sqrt (sampleVar spread)
    half_life := calculate_half_life spread
    adf_statistic := adf.1
    adf_p_value := adf.2
    significance := determine_significance c.2.1
    sample_size := prices_a.length }

/-- `CointegrationAnalyzer._johansen_test_2stocks`. -/
noncomputable def johansen_test_2stocks (o : StatsOracle)
    (prices_a prices_b : List ℚ) : CointResult :=
  let j := o.johansen prices_a prices_b
  let test_stat := j.1
  let critical_values := j.2.1
  let coint_vector := j.2.2
  let p_value := estimate_p_value_from_critical test_stat critical_values
  let hedge_ratio :=
    if coint_vector.1 ≠ 0 then -coint_vector.2 / coint_vector.1 else 1
  let spread := prices_a.zipWith (fun a b => a - hedge_ratio * b) prices_b
  let adf := o.adfuller spread
  { method := .johansen
    test_statistic := test_stat
    p_value := p_value
    critical_values := critical_values
    cointegration_vector := [coint_vector.1, coint_vector.2]
    hedge_ratios := [hedge_ratio]
    intercept := 0
    residuals_mean := meanQ spread
    residuals_std := Real.sqrt (sampleVar spread)
    half_life := calculate_half_life spread
    adf_statistic := adf.1
    adf_p_value := adf.2
    significance := determine_significance p_value
    sample_size := prices_a.length }

/-- `CointegrationAnalyzer.analyze_pair`: the two precondition checks
raise (`Except.error`); otherwise the method dispatch is exhaustive. -/
noncomputable def analyze_pair (o : StatsOracle) (prices_a prices_b : List ℚ)
    (method : CointMethod) : Except String CointResult :=
  if prices_a.length ≠ prices_b.length then
    .error "Price series must have same length"
  else if prices_a.length < 30 then
    .error "Insufficient data: need at least 30 observations"
  else
    match method with
    | .engle_granger => .ok (engle_granger_test o prices_a prices_b)
    | .johansen => .ok (johansen_test_2stocks o prices_a prices_b)

/-! ## Claim theorems -/

/-- C7: worked ledger example.  Starting from capital 10,000,000,
`add_position("X", 100, 70000, d0)` then `update_prices({"X": 77000}, d1)`
gives `total_value = 10,700,000`, and `close_position("X", 77000, d1)`
records a trade with `pnl = 700,000`. -/
theorem c7_worked_ledger_example :
    (let p2 :=
      (((Portfolio.start 10000000).add_position "X" 100 70000 0).2).update_prices
        [("X", 77000)] 1
     p2.total_value = 10700000 ∧
       ((p2.close_position "X" 77000 1).1.map TradeRec.pnl) = some 700000 ∧
       ((p2.close_position "X" 77000 1).2.trades.map
         (fun t => match t with
           | Trade.single r => r.pnl
           | Trade.pairTrade r => r.pnl)) = [700000]) :=
  ⟨by with_unfolding_all rfl, by with_unfolding_all rfl,
    by with_unfolding_all rfl⟩

/-- C1 (code bug): with all cost rates zero, shorting 1 share at price 60
from cash 100 passes the margin check (60 ≤ 100) but leaves `cash = -20`:
`execute_short` deducts the trade value once inside `add_position` and then
deducts `margin_required` (trade value + commission) again, so the
portfolio's cash becomes negative after an internal operation. -/
theorem c1_execute_short_negative_cash :
    (let r := TradingSimulator.execute_short
        { commission_rate := 0, slippage_rate := 0, impact_cost_rate := 0 }
        (Portfolio.start 100) "X" 1 60 0
     r.1 = true ∧ r.2.1 = none ∧ r.2.2.cash = -20) :=
  ⟨by with_unfolding_all rfl, by with_unfolding_all rfl,
    by with_unfolding_all rfl⟩

/-- C6 counterexample: on the length-2 spread `[0, 1]` the code computes
`np.cov`/`np.var` of a single observation with `ddof = 1`, i.e. `0/0 = NaN`;
the NaN β passes both range checks unnoticed and `-log 2 / log NaN` is NaN —
not the `0.0` the claim requires for every series of length ≥ 2 (the spec's
own λ formula gives the neutral `0.0` there). -/
theorem c6_length_two_gives_nan :
    calculate_half_life [(0 : ℚ), 1] = HalfLifeVal.nan ∧
    specHalfLife [(0 : ℚ), 1] = HalfLifeVal.zero :=
  ⟨by with_unfolding_all rfl, by with_unfolding_all rfl⟩

/-- C9: `profit_factor` returns 0.0 on an empty trade list; the infinite
sentinel exactly when gross losses are 0 and gross wins positive; the
quotient gross win / gross loss when losses are nonzero; and 0.0 on a
non-empty list whose wins and losses are both zero. -/
theorem c9_profit_factor_cases (pnls : List ℚ) :
    (pnls = [] → profit_factor pnls = PFloat.val 0) ∧
    (profit_factor pnls = PFloat.inf ↔
      total_loss pnls = 0 ∧ 0 < total_profit pnls) ∧
    (total_loss pnls ≠ 0 →
      profit_factor pnls = PFloat.val (total_profit pnls / total_loss pnls)) ∧
    (pnls ≠ [] ∧ total_profit pnls = 0 ∧ total_loss pnls = 0 →
      profit_factor pnls = PFloat.val 0) := by
  unfold profit_factor
  split_ifs with h1 h2 h3
  · rw [List.length_eq_zero] at h1
    subst h1
    simp [total_profit, total_loss]
  · refine ⟨fun h => ?_, ⟨fun _ => ⟨h2, h3⟩, fun _ => rfl⟩,
      fun h => absurd h2 h, fun h => ?_⟩
    · rw [h] at h1; simp at h1
    · rw [h.2.1] at h3; exact absurd h3 (lt_irrefl 0)
  · refine ⟨fun _ => rfl, ⟨fun h => ?_, fun h => absurd h.2 h3⟩,
      fun h => absurd h2 h, fun _ => rfl⟩
    · exact absurd h (by simp)
  · refine ⟨fun h => ?_, ⟨fun h => ?_, fun h => absurd h.1 h2⟩,
      fun _ => rfl, fun h => absurd h.2.2 h2⟩
    · rw [h] at h1; simp at h1
    · exact absurd h (by simp)

/-- C9 witness: `[5, -2]` has nonzero gross loss and the profit factor is
the quotient of gross win by gross loss. -/
theorem c9_profit_factor_witness :
    total_loss [(5 : ℚ), -2] ≠ 0 ∧
    profit_factor [(5 : ℚ), -2] =
      PFloat.val (total_profit [(5 : ℚ), -2] / total_loss [(5 : ℚ), -2]) :=
  ⟨of_decide_eq_true (by with_unfolding_all rfl),
    (c9_profit_factor_cases [5, -2]).2.2.1
      (of_decide_eq_true (by with_unfolding_all rfl))⟩

/-- Execution prices are clamped at 0 (`max(0, ...)`). -/
theorem calculate_execution_price_nonneg (s : TradingSimulator) (b : ℚ)
    (q : ℤ) (is_buy : Bool) : 0 ≤ s.calculate_execution_price b q is_buy :=
  le_max_left 0 _

/-- C4: pair-trade entry is atomic.  `execute_pair_trade` either succeeds —
cash drops by exactly both legs' trade value plus both commissions and the
one new `PairPosition` is recorded, with positions, trades and the equity
curve untouched — or it fails with a reason and the portfolio is returned
completely unchanged. -/
theorem c4_pair_trade_atomicity (s : TradingSimulator) (p : Portfolio)
    (pair_id long_code short_code : String) (long_qty short_qty : ℤ)
    (long_price short_price : ℚ) (date : ℕ) (hedge_ratio : ℚ) :
    ∀ ok reason p1,
      s.execute_pair_trade p pair_id long_code short_code long_qty short_qty
        long_price short_price date hedge_ratio = (ok, reason, p1) →
      (ok = false → reason.isSome = true ∧ p1 = p) ∧
      (ok = true →
        p1.cash = p.cash -
          ((long_qty : ℚ) * s.calculate_execution_price long_price long_qty true +
           (short_qty : ℚ) * s.calculate_execution_price short_price short_qty false +
           s.calculate_commission
             ((long_qty : ℚ) * s.calculate_execution_price long_price long_qty true) +
           s.calculate_commission
             ((short_qty : ℚ) *
               s.calculate_execution_price short_price short_qty false)) ∧
        p1.pair_positions = dictInsert p.pair_positions pair_id
          { pair_id := pair_id
            long_position :=
              { stock_code := long_code, quantity := long_qty,
                entry_price := s.calculate_execution_price long_price long_qty true,
                entry_date := date,
                current_price := s.calculate_execution_price long_price long_qty true }
            short_position :=
              { stock_code := short_code, quantity := -|short_qty|,
                entry_price := s.calculate_execution_price short_price short_qty false,
                entry_date := date,
                current_price :=
                  s.calculate_execution_price short_price short_qty false }
            entry_date := date, hedge_ratio := hedge_ratio } ∧
        p1.positions = p.positions ∧
        p1.trades = p.trades ∧
        p1.equity_curve = p.equity_curve ∧
        p1.initial_capital = p.initial_capital) := by
  intro ok reason p1 h
  simp only [TradingSimulator.execute_pair_trade, Portfolio.add_pair_position] at h
  split_ifs at h with hq hf hc
  · simp only [Prod.mk.injEq] at h
    obtain ⟨h1, h2, h3⟩ := h
    subst h1; subst h2; subst h3
    exact ⟨fun _ => ⟨rfl, rfl⟩, fun hk => by cases hk⟩
  · simp only [Prod.mk.injEq] at h
    obtain ⟨h1, h2, h3⟩ := h
    subst h1; subst h2; subst h3
    exact ⟨fun _ => ⟨rfl, rfl⟩, fun hk => by cases hk⟩
  · simp only [Prod.mk.injEq] at h
    obtain ⟨h1, h2, h3⟩ := h
    subst h1; subst h2; subst h3
    exact ⟨fun _ => ⟨rfl, rfl⟩, fun hk => by cases hk⟩
  · simp only [Prod.mk.injEq] at h
    obtain ⟨h1, h2, h3⟩ := h
    subst h1; subst h2; subst h3
    refine ⟨fun hk => Bool.noConfusion hk, fun _ => ?_⟩
    refine ⟨?_, ?_, ?_, ?_, ?_, ?_⟩
    rotate_left
    · rfl
    · rfl
    · rfl
    · rfl
    · rfl
    push_neg at hq
    have hs0 : (0 : ℚ) ≤ (short_qty : ℚ) := by exact_mod_cast le_of_lt hq.2
    have habs : |(short_qty : ℚ) *
        s.calculate_execution_price short_price short_qty false| =
        (short_qty : ℚ) * s.calculate_execution_price short_price short_qty false :=
      abs_of_nonneg (mul_nonneg hs0 (calculate_execution_price_nonneg s _ _ _))
    simp only [habs]
    ring

/-- C4 witness: a rejected pair instruction (non-positive long quantity)
returns a reason and the unchanged portfolio. -/
theorem c4_pair_trade_atomicity_witness :
    (some "Invalid quantities" : Option String).isSome = true ∧
      Portfolio.start 100 = Portfolio.start 100 :=
  (c4_pair_trade_atomicity
      { commission_rate := 0, slippage_rate := 0, impact_cost_rate := 0 }
      (Portfolio.start 100) "P" "A" "B" 0 1 10 10 0 1 false
      (some "Invalid quantities") (Portfolio.start 100)
      (by with_unfolding_all rfl)).1 rfl

/-- C10: `update_prices` is a pure mark-to-market: cash, the trade log, the
key sets, and every quantity / entry field are unchanged; each position's
`current_price` becomes the mapped price when its code is in the price map
and stays as it was otherwise; and exactly one `(date, total_value)` point
is appended to the equity curve. -/
theorem c10_update_prices_frame (p : Portfolio) (prices : List (String × ℚ))
    (date : ℕ) :
    ∀ p1, p1 = p.update_prices prices date →
      p1.cash = p.cash ∧
      p1.initial_capital = p.initial_capital ∧
      p1.trades = p.trades ∧
      p1.positions.map Prod.fst = p.positions.map Prod.fst ∧
      p1.pair_positions.map Prod.fst = p.pair_positions.map Prod.fst ∧
      p1.equity_curve = p.equity_curve ++ [(date, p1.total_value)] ∧
      (∀ k pos, (k, pos) ∈ p.positions →
        (k, { pos with
              current_price := (prices.lookup k).getD pos.current_price }) ∈
          p1.positions) ∧
      (∀ k pr, (k, pr) ∈ p.pair_positions →
        (k, { pr with
              long_position :=
                { pr.long_position with
                  current_price :=
                    (prices.lookup pr.long_position.stock_code).getD
                      pr.long_position.current_price }
              short_position :=
                { pr.short_position with
                  current_price :=
                    (prices.lookup pr.short_position.stock_code).getD
                      pr.short_position.current_price } }) ∈
          p1.pair_positions) := by
  intro p1 hp1
  subst hp1
  have hmark : ∀ k pos, markPosition prices k pos =
      { pos with current_price := (prices.lookup k).getD pos.current_price } := by
    intro k pos
    unfold markPosition
    cases prices.lookup k <;> rfl
  refine ⟨rfl, rfl, rfl, ?_, ?_, rfl, ?_, ?_⟩
  · simp [Portfolio.update_prices, List.map_map, Function.comp]
  · simp [Portfolio.update_prices, List.map_map, Function.comp]
  · intro k pos hmem
    unfold Portfolio.update_prices
    dsimp only
    rw [← hmark k pos]
    exact List.mem_map_of_mem _ hmem
  · intro k pr hmem
    unfold Portfolio.update_prices
    dsimp only
    rw [← hmark pr.long_position.stock_code pr.long_position,
      ← hmark pr.short_position.stock_code pr.short_position]
    exact List.mem_map_of_mem _ hmem

/-- C10 witness: the frame property instantiated at a one-position
portfolio and a one-entry price map. -/
theorem c10_update_prices_frame_witness :
    (let p : Portfolio :=
      { initial_capital := 10, cash := 4,
        positions := [("X", ⟨"X", 2, 3, 0, 3⟩)] }
     let p1 := p.update_prices [("X", 5)] 7
     p1.cash = p.cash ∧
     p1.initial_capital = p.initial_capital ∧
     p1.trades = p.trades ∧
     p1.positions.map Prod.fst = p.positions.map Prod.fst ∧
     p1.pair_positions.map Prod.fst = p.pair_positions.map Prod.fst ∧
     p1.equity_curve = p.equity_curve ++ [(7, p1.total_value)] ∧
     (∀ k pos, (k, pos) ∈ p.positions →
       (k, { pos with
             current_price := (([("X", (5 : ℚ))]).lookup k).getD
               pos.current_price }) ∈ p1.positions) ∧
     (∀ k pr, (k, pr) ∈ p.pair_positions →
       (k, { pr with
             long_position :=
               { pr.long_position with
                 current_price :=
                   (([("X", (5 : ℚ))]).lookup pr.long_position.stock_code).getD
                     pr.long_position.current_price }
             short_position :=
               { pr.short_position with
                 current_price :=
                   (([("X", (5 : ℚ))]).lookup pr.short_position.stock_code).getD
                     pr.short_position.current_price } }) ∈ p1.pair_positions)) :=
  c10_update_prices_frame _ [("X", 5)] 7 _ rfl

/-- `add_position` never touches the equity curve. -/
theorem add_position_equity (p : Portfolio) (c : String) (q : ℤ) (pr : ℚ)
    (d : ℕ) : ((p.add_position c q pr d).2).equity_curve = p.equity_curve := by
  unfold Portfolio.add_position
  dsimp only
  split <;> rfl

/-- `close_position` never touches the equity curve. -/
theorem close_position_equity (p : Portfolio) (c : String) (pr : ℚ) (d : ℕ) :
    ((p.close_position c pr d).2).equity_curve = p.equity_curve := by
  unfold Portfolio.close_position
  cases p.positions.lookup c <;> rfl

/-- `add_pair_position` never touches the equity curve. -/
theorem add_pair_position_equity (p : Portfolio) (pid lc sc : String)
    (lq sq : ℤ) (lp sp : ℚ) (d : ℕ) (hr : ℚ) :
    ((p.add_pair_position pid lc sc lq sq lp sp d hr).2).equity_curve =
      p.equity_curve := by
  unfold Portfolio.add_pair_position
  dsimp only
  split <;> rfl

/-- `close_pair_position` never touches the equity curve. -/
theorem close_pair_position_equity (p : Portfolio) (pid : String) (lp sp : ℚ)
    (d : ℕ) :
    ((p.close_pair_position pid lp sp d).2).equity_curve = p.equity_curve := by
  unfold Portfolio.close_pair_position
  cases p.pair_positions.lookup pid <;> rfl

/-- `execute_long` never touches the equity curve. -/
theorem execute_long_equity (s : TradingSimulator) (p : Portfolio)
    (c : String) (q : ℤ) (pr : ℚ) (d : ℕ) :
    ((s.execute_long p c q pr d).2.2).equity_curve = p.equity_curve := by
  unfold TradingSimulator.execute_long
  dsimp only
  split
  · rfl
  · split
    · rfl
    · split
      next p1 heq =>
        have : p1 = (p.add_position c q
            (s.calculate_execution_price pr q true) d).2 := by rw [heq]
        rw [this]
        exact add_position_equity ..
      next p1 heq =>
        have : p1 = (p.add_position c q
            (s.calculate_execution_price pr q true) d).2 := by rw [heq]
        simp only [this]
        exact add_position_equity ..

/-- `execute_short` never touches the equity curve. -/
theorem execute_short_equity (s : TradingSimulator) (p : Portfolio)
    (c : String) (q : ℤ) (pr : ℚ) (d : ℕ) :
    ((s.execute_short p c q pr d).2.2).equity_curve = p.equity_curve := by
  unfold TradingSimulator.execute_short
  dsimp only
  split
  · rfl
  · split
    · rfl
    · split
      next p1 heq =>
        have : p1 = (p.add_position c (-q)
            (s.calculate_execution_price pr q false) d).2 := by rw [heq]
        rw [this]
        exact add_position_equity ..
      next p1 heq =>
        have : p1 = (p.add_position c (-q)
            (s.calculate_execution_price pr q false) d).2 := by rw [heq]
        simp only [this]
        exact add_position_equity ..

/-- `execute_pair_trade` never touches the equity curve. -/
theorem execute_pair_trade_equity (s : TradingSimulator) (p : Portfolio)
    (pid lc sc : String) (lq sq : ℤ) (lp sp : ℚ) (d : ℕ) (hr : ℚ) :
    ((s.execute_pair_trade p pid lc sc lq sq lp sp d hr).2.2).equity_curve =
      p.equity_curve := by
  unfold TradingSimulator.execute_pair_trade
  dsimp only
  split
  · rfl
  · split
    · rfl
    · split
      next p1 heq =>
        have : p1 = (p.add_pair_position pid lc sc lq sq
            (s.calculate_execution_price lp lq true)
            (s.calculate_execution_price sp sq false) d hr).2 := by rw [heq]
        rw [this]
        exact add_pair_position_equity ..
      next p1 heq =>
        have : p1 = (p.add_pair_position pid lc sc lq sq
            (s.calculate_execution_price lp lq true)
            (s.calculate_execution_price sp sq false) d hr).2 := by rw [heq]
        simp only [this]
        exact add_pair_position_equity ..

/-- `close_pair_trade` never touches the equity curve. -/
theorem close_pair_trade_equity (s : TradingSimulator) (p : Portfolio)
    (pid : String) (lp sp : ℚ) (d : ℕ) :
    ((s.close_pair_trade p pid lp sp d).2.2.2).equity_curve =
      p.equity_curve := by
  unfold TradingSimulator.close_pair_trade
  cases hpair : p.pair_positions.lookup pid with
  | none => rfl
  | some pair =>
    dsimp only
    split
    next p1 heq =>
      have : p1 = (p.close_pair_position pid
          (s.calculate_execution_price lp pair.long_position.quantity false)
          (s.calculate_execution_price sp |pair.short_position.quantity| true)
          d).2 := by rw [heq]
      rw [this]
      exact close_pair_position_equity ..
    next tr p1 heq =>
      have : p1 = (p.close_pair_position pid
          (s.calculate_execution_price lp pair.long_position.quantity false)
          (s.calculate_execution_price sp |pair.short_position.quantity| true)
          d).2 := by rw [heq]
      simp only [this]
      exact close_pair_position_equity ..

/-- Signal dispatch for a pair entry never touches the equity curve. -/
theorem execPairEntry_equity (sim : TradingSimulator) (p : Portfolio)
    (signal : Signal) (cp : List (String × ℚ)) (d : ℕ) :
    (execPairEntry sim p signal cp d).equity_curve = p.equity_curve := by
  unfold execPairEntry
  (repeat' split) <;> first
    | rfl
    | exact execute_pair_trade_equity ..

/-- Signal dispatch for a pair exit never touches the equity curve. -/
theorem execPairExit_equity (sim : TradingSimulator) (p : Portfolio)
    (signal : Signal) (cp : List (String × ℚ)) (d : ℕ) :
    (execPairExit sim p signal cp d).equity_curve = p.equity_curve := by
  unfold execPairExit
  (repeat' split) <;> first
    | rfl
    | exact close_pair_trade_equity ..

/-- Signal dispatch for a long entry never touches the equity curve. -/
theorem execLong_equity (sim : TradingSimulator) (p : Portfolio)
    (signal : Signal) (cp : List (String × ℚ)) (d : ℕ) :
    (execLong sim p signal cp d).equity_curve = p.equity_curve := by
  unfold execLong
  (repeat' split) <;> first
    | rfl
    | exact execute_long_equity ..

/-- Signal dispatch for a short entry never touches the equity curve. -/
theorem execShort_equity (sim : TradingSimulator) (p : Portfolio)
    (signal : Signal) (cp : List (String × ℚ)) (d : ℕ) :
    (execShort sim p signal cp d).equity_curve = p.equity_curve := by
  unfold execShort
  (repeat' split) <;> first
    | rfl
    | exact execute_short_equity ..

/-- No signal execution ever touches the equity curve. -/
theorem execSignal_equity (sim : TradingSimulator) (p : Portfolio)
    (signal : Signal) (cp : List (String × ℚ)) (d : ℕ) :
    (execSignal sim p signal cp d).equity_curve = p.equity_curve := by
  unfold execSignal
  split_ifs
  · exact execPairEntry_equity ..
  · exact execPairExit_equity ..
  · exact execLong_equity ..
  · exact execShort_equity ..
  · rfl

/-- A whole day's signal processing never touches the equity curve. -/
theorem processSignals_equity (sim : TradingSimulator) (d : ℕ)
    (cp : List (String × ℚ)) :
    ∀ (sigs : List Signal) (p : Portfolio),
      ((processSignals sim d cp sigs p).2).equity_curve = p.equity_curve := by
  intro sigs
  induction sigs with
  | nil => intro p; rfl
  | cons s rest ih =>
    intro p
    unfold processSignals
    split
    · rfl
    · rw [ih]
      split
      · exact execSignal_equity ..
      · rfl

/-- `update_prices` appends exactly the date of the call to the equity
curve's date sequence. -/
theorem update_prices_equity_dates (p : Portfolio)
    (prices : List (String × ℚ)) (d : ℕ) :
    (p.update_prices prices d).equity_curve.map Prod.fst =
      p.equity_curve.map Prod.fst ++ [d] := by
  unfold Portfolio.update_prices
  dsimp only
  rw [List.map_append]
  rfl

/-- The daily loop records exactly one equity point, in calendar order, for
each simulated day whose price map is non-empty. -/
theorem runLoop_equity_dates (sim : TradingSimulator)
    (pd : List (String × List (ℕ × ℚ))) :
    ∀ (fuel cur : ℕ) (sigs : List Signal) (p : Portfolio),
      (runLoop sim pd fuel cur sigs p).equity_curve.map Prod.fst =
        p.equity_curve.map Prod.fst ++
          (simDaysFrom cur fuel).filter
            (fun d => decide (getPricesForDate pd d ≠ [])) := by
  intro fuel
  induction fuel with
  | zero => intro cur sigs p; simp [runLoop, simDaysFrom]
  | succ n ih =>
    intro cur sigs p
    unfold runLoop simDaysFrom
    dsimp only
    rw [ih, processSignals_equity]
    by_cases hcp : getPricesForDate pd cur ≠ []
    · rw [if_pos hcp, update_prices_equity_dates]
      simp [List.filter_cons, hcp]
    · rw [if_neg hcp]
      simp [List.filter_cons, hcp]

/-- C3 counterexample: over the two-day range `[0, 1]` with an empty price
data set, `BacktestEngine.run` never calls `update_prices` (the engine
skips any day whose gathered price map is empty), so the equity curve is
empty instead of having one point per simulated day. -/
theorem c3_counterexample_no_price_days :
    (BacktestEngine.run
        { initial_capital := 1000, start_date := 0, end_date := 1 }
        [] []).equity_curve = [] ∧
    simDays 0 1 = [0, 1] :=
  ⟨by with_unfolding_all rfl, by with_unfolding_all rfl⟩

/-- C3 amended: during `BacktestEngine.run` over `[start_date, end_date]`,
`update_prices` is called exactly once — appending exactly one equity point
— for every simulated day on which at least one instrument has a price;
days whose gathered price map is empty are skipped.  Hence the equity
curve's dates are exactly the priced days of the range, in order. -/
theorem c3_equity_one_point_per_priced_day (config : BacktestConfig)
    (price_data : List (String × List (ℕ × ℚ))) (signals : List Signal) :
    (BacktestEngine.run config price_data signals).equity_curve.map Prod.fst =
      (simDays config.start_date config.end_date).filter
        (fun d => decide (getPricesForDate price_data d ≠ [])) := by
  unfold BacktestEngine.run simDays
  dsimp only
  rw [runLoop_equity_dates]
  rfl

/-- Sum of an elementwise difference of equally long lists. -/
theorem zipWith_sub_sum (c : List ℚ) :
    ∀ l : List ℚ, c.length = l.length →
      (c.zipWith (fun a b => a - b) l).sum = c.sum - l.sum := by
  induction c with
  | nil =>
    intro l h
    cases l with
    | nil => simp
    | cons x xs => simp at h
  | cons a as ih =>
    intro l h
    cases l with
    | nil => simp at h
    | cons b bs =>
      simp only [List.zipWith_cons_cons, List.sum_cons]
      rw [ih bs (by simpa using h)]
      ring

/-- The centered cross-sum of `Δ = curr − lag` against `lag` equals the
centered cross-sum of `lag` against `curr` minus the centered square sum of
`lag` (pointwise algebra, summed). -/
theorem covNum_delta (mC mL : ℚ) (c : List ℚ) :
    ∀ l : List ℚ, c.length = l.length →
      (((c.zipWith (fun a b => a - b) l).zip l).map
          (fun q => (q.1 - (mC - mL)) * (q.2 - mL))).sum =
        ((l.zip c).map (fun q => (q.1 - mL) * (q.2 - mC))).sum -
          (l.map (fun x => (x - mL) ^ 2)).sum := by
  induction c with
  | nil =>
    intro l h
    cases l with
    | nil => simp
    | cons x xs => simp at h
  | cons a as ih =>
    intro l h
    cases l with
    | nil => simp at h
    | cons b bs =>
      simp only [List.zipWith_cons_cons, List.zip_cons_cons, List.map_cons,
        List.sum_cons]
      rw [ih bs (by simpa using h)]
      ring

/-- `npMeanQ` on a non-empty list is the finite sample mean. -/
theorem npMeanQ_eval (xs : List ℚ) (h : xs ≠ []) :
    npMeanQ xs = some (xs.sum / xs.length) := by
  have h0 : (xs.length : ℚ) ≠ 0 :=
    Nat.cast_ne_zero.mpr (fun hc => h (List.length_eq_zero.mp hc))
  simp [npMeanQ, qdiv, h0]

/-- `npVarQ` on a list of at least two elements is the finite sample
variance. -/
theorem npVarQ_eval (xs : List ℚ) (h : 2 ≤ xs.length) :
    npVarQ xs =
      some ((xs.map (fun x => (x - xs.sum / xs.length) ^ 2)).sum /
        ((xs.length : ℚ) - 1)) := by
  have hne : xs ≠ [] := by
    intro hc; rw [hc] at h; simp at h
  have h1 : ((xs.length : ℚ) - 1) ≠ 0 := by
    have : (2 : ℚ) ≤ (xs.length : ℚ) := by exact_mod_cast h
    intro hc; rw [sub_eq_zero] at hc; rw [hc] at this; norm_num at this
  rw [npVarQ, npMeanQ_eval xs hne]
  simp [qdiv, h1]

/-- `npCovQ` with a first list of at least two elements and a non-empty
second list is the finite sample covariance. -/
theorem npCovQ_eval (xs ys : List ℚ) (hx : 2 ≤ xs.length) (hy : ys ≠ []) :
    npCovQ xs ys =
      some (((xs.zip ys).map
          (fun q => (q.1 - xs.sum / xs.length) * (q.2 - ys.sum / ys.length))).sum /
        ((xs.length : ℚ) - 1)) := by
  have hxne : xs ≠ [] := by
    intro hc; rw [hc] at hx; simp at hx
  have h1 : ((xs.length : ℚ) - 1) ≠ 0 := by
    have : (2 : ℚ) ≤ (xs.length : ℚ) := by exact_mod_cast hx
    intro hc; rw [sub_eq_zero] at hc; rw [hc] at this; norm_num at this
  rw [npCovQ, npMeanQ_eval xs hxne, npMeanQ_eval ys hy]
  simp [qdiv, h1]

/-- C6 amended: for every spread series whose length is not exactly 2, the
code's half-life agrees with the spec's formula: both give 0.0 below length
2, and for length ≥ 3 the direct AR(1) coefficient `cov(curr,lag)/var(lag)`
coincides with the spec's `cov(Δ,lag)/var(lag) + 1`, with the same
zero-variance neutral value and the same (0,1) gating of the
`-ln 2 / ln λ` value.  (Length exactly 2 is excluded — the code yields NaN
there, see the counterexample.) -/
theorem c6_half_life_matches_spec (spread : List ℚ)
    (h2 : spread.length ≠ 2) :
    calculate_half_life spread = specHalfLife spread := by
  unfold calculate_half_life specHalfLife
  by_cases hlt : spread.length < 2
  · rw [if_pos hlt, if_pos hlt]
  · rw [if_neg hlt, if_neg hlt]
    push_neg at hlt
    have hn3 : 3 ≤ spread.length := by omega
    dsimp only
    have hlaglen : spread.dropLast.length = spread.length - 1 :=
      List.length_dropLast spread
    have hcurrlen : (spread.drop 1).length = spread.length - 1 := by
      simp [List.length_drop]
    have hlag2 : 2 ≤ spread.dropLast.length := by omega
    have hlagne : spread.dropLast ≠ [] := by
      intro hc
      rw [hc] at hlaglen
      simp at hlaglen
      omega
    have hcurrne : spread.drop 1 ≠ [] := by
      intro hc
      rw [hc] at hcurrlen
      simp at hcurrlen
      omega
    have hlencc : (spread.drop 1).length = spread.dropLast.length := by omega
    have hdlen :
        ((spread.drop 1).zipWith (fun a b => a - b) spread.dropLast).length =
          spread.length - 1 := by
      rw [List.length_zipWith, hcurrlen, hlaglen]
      omega
    have hd2 :
        2 ≤ ((spread.drop 1).zipWith (fun a b => a - b) spread.dropLast).length := by
      omega
    have hdsum := zipWith_sub_sum (spread.drop 1) spread.dropLast hlencc
    rw [npVarQ_eval spread.dropLast hlag2,
      npCovQ_eval spread.dropLast (spread.drop 1) hlag2 hcurrne,
      npCovQ_eval ((spread.drop 1).zipWith (fun a b => a - b) spread.dropLast)
        spread.dropLast hd2 hlagne,
      hdlen, hlaglen, hcurrlen, hdsum, sub_div,
      covNum_delta ((spread.drop 1).sum / ((spread.length - 1 : ℕ) : ℚ))
        (spread.dropLast.sum / ((spread.length - 1 : ℕ) : ℚ))
        (spread.drop 1) spread.dropLast hlencc]
    set A :=
      ((spread.dropLast.zip (spread.drop 1)).map
        (fun q =>
          (q.1 - spread.dropLast.sum / ((spread.length - 1 : ℕ) : ℚ)) *
          (q.2 - (spread.drop 1).sum / ((spread.length - 1 : ℕ) : ℚ)))).sum
      with hA
    set B :=
      (spread.dropLast.map
        (fun x =>
          (x - spread.dropLast.sum / ((spread.length - 1 : ℕ) : ℚ)) ^ 2)).sum
      with hB
    set k := (((spread.length - 1 : ℕ) : ℚ) - 1) with hk
    by_cases hv : B / k = 0
    · simp [qdiv, hv]
    · rw [if_neg (by simpa using hv)]
      simp only [qdiv, if_neg hv]
      have hlam : (A - B) / k / (B / k) + 1 = A / k / (B / k) := by
        rw [sub_div, sub_div, div_self hv]
        ring
      rw [hlam]
      by_cases hb : 1 ≤ A / k / (B / k) ∨ A / k / (B / k) ≤ 0
      · rw [if_pos hb, if_neg]
        rintro ⟨hb1, hb2⟩
        rcases hb with hb | hb <;> linarith
      · rw [if_neg hb, if_pos]
        push_neg at hb
        exact ⟨by linarith [hb.2], by linarith [hb.1]⟩

/-- C6 witness: the half-life equivalence at the concrete length-3 spread
`[0, 1, 0]`. -/
theorem c6_half_life_matches_spec_witness :
    ([(0 : ℚ), 1, 0].length ≠ 2) ∧
      calculate_half_life [(0 : ℚ), 1, 0] = specHalfLife [(0 : ℚ), 1, 0] :=
  ⟨by decide, c6_half_life_matches_spec _ (by decide)⟩

/-- C5: `analyze_pair` returns a result exactly when the two series have
equal lengths and at least 30 observations — for any behavior of the
(total) statsmodels collaborators and either method — and otherwise
errors; the numeric degeneracies resolve neutrally without raising: zero
variance of B gives hedge ratio 1.0, and a zero-variance lagged spread or
an AR(1) coefficient outside (0,1) give half-life 0.0. -/
theorem c5_analyze_pair_contract (o : StatsOracle)
    (prices_a prices_b : List ℚ) (method : CointMethod) :
    ((∃ r, analyze_pair o prices_a prices_b method = Except.ok r) ↔
      (prices_a.length = prices_b.length ∧ 30 ≤ prices_a.length)) ∧
    (∀ r, analyze_pair o prices_a prices_b CointMethod.engle_granger =
        Except.ok r → sampleVar prices_b = 0 → r.hedge_ratios = [1]) ∧
    (∀ s : List ℚ, npVarQ s.dropLast = some 0 →
      calculate_half_life s = HalfLifeVal.zero) ∧
    (∀ (s : List ℚ) (b : ℚ),
      qdiv (npCovQ s.dropLast (s.drop 1)) (npVarQ s.dropLast) = some b →
      1 ≤ b ∨ b ≤ 0 → calculate_half_life s = HalfLifeVal.zero) := by
  refine ⟨?_, ?_, ?_, ?_⟩
  · unfold analyze_pair
    split_ifs with h1 h30
    · constructor
      · rintro ⟨r, hr⟩; cases hr
      · rintro ⟨hEq, -⟩; exact absurd hEq h1
    · constructor
      · rintro ⟨r, hr⟩; cases hr
      · rintro ⟨-, hge⟩; omega
    · constructor
      · intro _
        push_neg at h1
        exact ⟨h1, by omega⟩
      · intro _
        cases method
        · exact ⟨_, rfl⟩
        · exact ⟨_, rfl⟩
  · unfold analyze_pair
    split_ifs with h1 h30
    · intro r hr; cases hr
    · intro r hr; cases hr
    · intro r hr hvar
      cases hr
      unfold engle_granger_test
      dsimp only
      unfold calculate_hedge_ratio
      dsimp only
      rw [if_pos hvar]
  · intro s hvar
    unfold calculate_half_life
    by_cases hlen : s.length < 2
    · rw [if_pos hlen]
    · rw [if_neg hlen]
      dsimp only
      rw [if_pos hvar]
  · intro s b hbeta hrange
    unfold calculate_half_life
    by_cases hlen : s.length < 2
    · rw [if_pos hlen]
    · rw [if_neg hlen]
      dsimp only
      by_cases hv : npVarQ s.dropLast = some 0
      · rw [if_pos hv]
      · rw [if_neg hv, hbeta]
        dsimp only
        rw [if_pos hrange]

/-- C5 witness: two constant series of 30 observations pass the
preconditions and produce a result. -/
theorem c5_analyze_pair_contract_witness :
    ((List.replicate 30 (0 : ℚ)).length = (List.replicate 30 (0 : ℚ)).length ∧
      30 ≤ (List.replicate 30 (0 : ℚ)).length) ∧
    (∃ r, analyze_pair
        ⟨fun _ _ => (0, 0, (0, 0, 0)), fun _ => (0, 0),
          fun _ _ => (0, (0, 0, 0), (0, 0))⟩
        (List.replicate 30 (0 : ℚ)) (List.replicate 30 (0 : ℚ))
        CointMethod.engle_granger = Except.ok r) :=
  ⟨⟨rfl, by simp⟩,
    (c5_analyze_pair_contract _ _ _ _).1.mpr ⟨rfl, by simp⟩⟩

/-- The sample variance (`ddof = 1`) of a single observation is NaN:
the sum of squared deviations and the divisor `n - 1` are both exactly 0. -/
theorem npVar_one_singleton (y : ℝ) : npVar 1 [y] = none := by
  simp [npVar, npMean, nfDiv]

/-- The sample standard deviation (`ddof = 1`) of a single observation is
NaN. -/
theorem npStd_one_singleton (y : ℝ) : npStd 1 [y] = none := by
  rw [npStd, npVar_one_singleton]
  rfl

/-- Constructor-level reduction for NaN-propagating division. -/
theorem nfDiv_some_some (a b : ℝ) :
    nfDiv (some a) (some b) = if b = 0 then none else some (a / b) := rfl

/-- Division by NaN is NaN. -/
theorem nfDiv_none_right (a : Option ℝ) : nfDiv a none = none := by
  cases a <;> rfl

/-- Division of NaN is NaN. -/
theorem nfDiv_none_left (b : Option ℝ) : nfDiv none b = none := rfl

/-- Multiplication with NaN on the left is NaN. -/
theorem nfMul_none_left (b : Option ℝ) : nfMul none b = none := rfl

/-- Subtraction of NaN is NaN. -/
theorem nfSub_none_right (a : Option ℝ) : nfSub a none = none := by
  cases a <;> rfl

/-- C2 (code bug): on a single-element return series — e.g. the returns
from a two-point equity curve — `sharpe_ratio` (and the `volatility` of
`calculate_all_metrics`) return NaN, not the documented 0: the `ddof = 1`
standard deviation of one sample is `0/0 = NaN`, and the `std == 0` guard
is false for NaN, so NaN propagates to the result. -/
theorem c2_sharpe_singleton_nan (x risk_free_rate : ℝ) :
    sharpe_ratio [x] risk_free_rate = none ∧ volatility [x] = none := by
  constructor
  · unfold sharpe_ratio
    rw [if_neg (by simp)]
    dsimp only
    simp only [List.map_cons, List.map_nil]
    rw [npStd_one_singleton]
    rw [if_neg (by simp)]
    rw [nfDiv_none_right, nfMul_none_left]
  · unfold volatility
    rw [if_pos (by simp)]
    rw [npStd_one_singleton, nfMul_none_left, nfMul_none_left]

/-- Negating every element negates the sum. -/
theorem sum_map_neg (l : List ℝ) : (l.map Neg.neg).sum = -l.sum := by
  induction l with
  | nil => simp
  | cons a as ih =>
    simp [ih]
    ring

/-- Negating the series negates the (possibly NaN) mean. -/
theorem npMean_neg (xs : List ℝ) :
    npMean (xs.map Neg.neg) = (npMean xs).map Neg.neg := by
  unfold npMean
  rw [List.length_map, sum_map_neg, nfDiv_some_some, nfDiv_some_some]
  by_cases h : (xs.length : ℝ) = 0
  · rw [if_pos h, if_pos h]
    rfl
  · rw [if_neg h, if_neg h]
    simp [neg_div]

/-- Negating the series leaves the (possibly NaN) variance unchanged. -/
theorem npVar_neg (d : ℕ) (xs : List ℝ) :
    npVar d (xs.map Neg.neg) = npVar d xs := by
  unfold npVar
  rw [npMean_neg]
  cases hm : npMean xs with
  | none => rfl
  | some m =>
    dsimp only [Option.map]
    rw [List.length_map, List.map_map]
    have hfun : ((fun x => (x - -m) ^ 2) ∘ Neg.neg) = fun x : ℝ => (x - m) ^ 2 := by
      funext a
      dsimp only [Function.comp]
      ring
    rw [hfun]

/-- Negating the series leaves the (possibly NaN) standard deviation
unchanged. -/
theorem npStd_neg (d : ℕ) (xs : List ℝ) :
    npStd d (xs.map Neg.neg) = npStd d xs := by
  unfold npStd
  rw [npVar_neg]

/-- Sign flip of the spread series negates the (possibly NaN) Z-score. -/
theorem calculate_z_score_neg (spread : List ℝ) (window : Option ℕ) :
    calculate_z_score (spread.map Neg.neg) window =
      (calculate_z_score spread window).map Neg.neg := by
  unfold calculate_z_score
  rw [List.length_map]
  by_cases h0 : spread.length = 0
  · rw [if_pos h0, if_pos h0]
    simp
  · rw [if_neg h0, if_neg h0]
    dsimp only
    have hrec : (if window.getD spread.length = 0 then spread.map Neg.neg
        else (spread.map Neg.neg).drop
          (spread.length - window.getD spread.length)) =
        (if window.getD spread.length = 0 then spread
          else spread.drop (spread.length - window.getD spread.length)).map
            Neg.neg := by
      split_ifs
      · rfl
      · exact (List.map_drop _ _ _).symm
    rw [hrec, npStd_neg, npMean_neg, List.getLast?_map]
    have hne : spread ≠ [] := fun hc => h0 (by rw [hc]; rfl)
    obtain ⟨y, hy⟩ := Option.isSome_iff_exists.mp (List.getLast?_isSome.mpr hne)
    rw [hy]
    by_cases hstd : npStd 1 (if window.getD spread.length = 0 then spread
        else spread.drop (spread.length - window.getD spread.length)) = some 0
    · rw [if_pos hstd, if_pos hstd]
      simp
    · rw [if_neg hstd, if_neg hstd]
      cases hm : npMean (if window.getD spread.length = 0 then spread
          else spread.drop (spread.length - window.getD spread.length)) with
      | none =>
        rfl
      | some m =>
        cases hs : npStd 1 (if window.getD spread.length = 0 then spread
            else spread.drop (spread.length - window.getD spread.length)) with
        | none =>
          rw [nfDiv_none_right, nfDiv_none_right]
          rfl
        | some s =>
          have hs0 : s ≠ 0 := by
            intro hc
            rw [hc] at hs
            exact hstd hs
          dsimp only [Option.map, Option.getD, nfSub]
          rw [nfDiv_some_some, nfDiv_some_some, if_neg hs0, if_neg hs0]
          dsimp only [Option.map]
          congr 1
          have hnum : -y - -m = -(y - m) := by ring
          rw [hnum, neg_div]

/-- C8: entry and exit detection are mirror-symmetric under sign flip of
the spread series, for any window and any non-negative entry threshold
(the configured default is 2.0): flipping the series swaps LONG and SHORT
entries, preserves "no entry", and swaps the exit conditions of the two
position types. -/
theorem c8_mirror_symmetry (a : SpreadAnalyzer) (spread : List ℝ)
    (window : Option ℕ) (hth : 0 ≤ a.z_score_entry) :
    (a.detect_entry_signal (spread.map Neg.neg) window = some "LONG" ↔
      a.detect_entry_signal spread window = some "SHORT") ∧
    (a.detect_entry_signal (spread.map Neg.neg) window = some "SHORT" ↔
      a.detect_entry_signal spread window = some "LONG") ∧
    (a.detect_entry_signal (spread.map Neg.neg) window = none ↔
      a.detect_entry_signal spread window = none) ∧
    (a.detect_exit_signal (spread.map Neg.neg) "LONG" window =
      a.detect_exit_signal spread "SHORT" window) ∧
    (a.detect_exit_signal (spread.map Neg.neg) "SHORT" window =
      a.detect_exit_signal spread "LONG" window) := by
  unfold SpreadAnalyzer.detect_entry_signal SpreadAnalyzer.detect_exit_signal
  rw [calculate_z_score_neg]
  cases hz : calculate_z_score spread window with
  | none => simp
  | some z =>
    dsimp only [Option.map]
    refine ⟨?_, ?_, ?_, ?_, ?_⟩
    · split_ifs <;> simp_all <;> linarith
    · split_ifs <;> simp_all <;> linarith
    · split_ifs <;> simp_all <;> linarith
    · rw [if_pos rfl, if_neg (by decide), if_pos rfl, decide_eq_decide]
      exact neg_le_neg_iff
    · rw [if_neg (by decide), if_pos rfl, if_pos rfl, decide_eq_decide]
      exact neg_le

/-- C8 witness: the mirror symmetry instantiated at entry threshold 2, exit
threshold 1/2, window `none`, and spread `[1, 2]`. -/
theorem c8_mirror_symmetry_witness :
    (0 : ℝ) ≤ (SpreadAnalyzer.mk 60 2 (1 / 2)).z_score_entry ∧
    (((SpreadAnalyzer.mk 60 2 (1 / 2)).detect_entry_signal
        ([(1 : ℝ), 2].map Neg.neg) none = some "LONG" ↔
      (SpreadAnalyzer.mk 60 2 (1 / 2)).detect_entry_signal [(1 : ℝ), 2] none =
        some "SHORT") ∧
    ((SpreadAnalyzer.mk 60 2 (1 / 2)).detect_entry_signal
        ([(1 : ℝ), 2].map Neg.neg) none = some "SHORT" ↔
      (SpreadAnalyzer.mk 60 2 (1 / 2)).detect_entry_signal [(1 : ℝ), 2] none =
        some "LONG") ∧
    ((SpreadAnalyzer.mk 60 2 (1 / 2)).detect_entry_signal
        ([(1 : ℝ), 2].map Neg.neg) none = none ↔
      (SpreadAnalyzer.mk 60 2 (1 / 2)).detect_entry_signal [(1 : ℝ), 2] none =
        none) ∧
    ((SpreadAnalyzer.mk 60 2 (1 / 2)).detect_exit_signal
        ([(1 : ℝ), 2].map Neg.neg) "LONG" none =
      (SpreadAnalyzer.mk 60 2 (1 / 2)).detect_exit_signal [(1 : ℝ), 2]
        "SHORT" none) ∧
    ((SpreadAnalyzer.mk 60 2 (1 / 2)).detect_exit_signal
        ([(1 : ℝ), 2].map Neg.neg) "SHORT" none =
      (SpreadAnalyzer.mk 60 2 (1 / 2)).detect_exit_signal [(1 : ℝ), 2]
        "LONG" none)) :=
  ⟨by norm_num, c8_mirror_symmetry (SpreadAnalyzer.mk 60 2 (1 / 2))
    [(1 : ℝ), 2] none (by norm_num)⟩
